import Mathlib

/-
  Verification of the JSON structural-operations core of
  src/python/json-formatter/tools/json_tools.py: path extraction
  (extract_json_path), deep merge (merge_json / _deep_merge) and structural
  diff (compare_json / _compare_values), shallowly embedded over an explicit
  model of parsed Python JSON values.
-/

set_option maxHeartbeats 1000000

namespace JsonTools

/-- Python strings are modelled as lists of characters. -/
abbrev PyStr := List Char

/-- A parsed JSON document as produced by `json.loads`: Python `None`, `bool`,
`int`, `float`, `str`, `list`, `dict`.  Float payloads are modelled as
rationals: the structural operations only ever test floats for equality and
for their runtime type, never do arithmetic on them. -/
inductive Value where
  | null : Value
  | bool (b : Bool) : Value
  | int (n : Int) : Value
  | float (q : Rat) : Value
  | str (s : PyStr) : Value
  | arr (l : List Value) : Value
  | obj (o : List (PyStr × Value)) : Value

instance : Inhabited Value := ⟨Value.null⟩

/-- A Python dictionary with string keys, as the items of a parsed JSON
object: an association list in insertion order (real dicts have unique
keys). -/
abbrev Dict := List (PyStr × Value)

/-- The Python runtime type of a parsed JSON value, as `type(...)` sees it:
`int` and `float` are distinct types even though both are JSON numbers. -/
inductive PyType where
  | noneType | bool | int | float | str | list | dict
deriving DecidableEq

def pyType : Value → PyType
  | .null => .noneType
  | .bool _ => .bool
  | .int _ => .int
  | .float _ => .float
  | .str _ => .str
  | .arr _ => .list
  | .obj _ => .dict

/-- `type(v).__name__`. -/
def typeName : Value → PyStr
  | .null => "NoneType".toList
  | .bool _ => "bool".toList
  | .int _ => "int".toList
  | .float _ => "float".toList
  | .str _ => "str".toList
  | .arr _ => "list".toList
  | .obj _ => "dict".toList

/-- Exceptions the embedded code can raise.  `valueError` is the typed
failure channel the module raises deliberately (and what Python's `int()`
and tuple unpacking raise); `keyError`, `indexError` and `typeError` are the
untyped crashes of raw subscripting. -/
inductive PyErr where
  | valueError (msg : PyStr)
  | keyError
  | indexError
  | typeError
deriving DecidableEq

/-! ### Dictionary primitives -/

/-- Lookup in a dict (`key in d` / `d[key]` on the success path). -/
def dictFind? : Dict → PyStr → Option Value
  | [], _ => none
  | (k, v) :: rest, key => if k = key then some v else dictFind? rest key

/-- Python `d.get(key)`: the value, or `None` when the key is absent. -/
def dictGetD (o : Dict) (key : PyStr) : Value := (dictFind? o key).getD .null

/-- First-occurrence deduplication, keeping order. -/
def dedupGo (seen : List PyStr) : List PyStr → List PyStr
  | [] => []
  | k :: rest => if k ∈ seen then dedupGo seen rest else k :: dedupGo (k :: seen) rest

/-- The keys of a dict in insertion order (each once, as in a real dict). -/
def dictKeys (o : Dict) : List PyStr := dedupGo [] (o.map Prod.fst)

/-- Python dict assignment `d[key] = v`: replace in place when the key is
present, append otherwise. -/
def dictInsert : Dict → PyStr → Value → Dict
  | [], key, v => [(key, v)]
  | (k, w) :: rest, key, v =>
      if k = key then (key, v) :: rest else (k, w) :: dictInsert rest key v

/-! ### Python string and int primitives used by the extractor -/

/-- Python `s.split(sep)` for a one-character separator:
`"".split(sep) = [""]`, separators at the ends produce empty pieces. -/
def pySplit (sep : Char) : PyStr → List PyStr
  | [] => [[]]
  | c :: rest =>
      if c = sep then [] :: pySplit sep rest
      else
        match pySplit sep rest with
        | [] => [[c]]
        | r :: rs => (c :: r) :: rs

/-- Python `s.rstrip(c)` for a one-character strip set. -/
def pyRstrip (c : Char) (s : PyStr) : PyStr :=
  (s.reverse.dropWhile (fun x => x = c)).reverse

/-- The numeric value of a nonempty all-digit string, `none` otherwise. -/
def pyDigits? (s : PyStr) : Option Nat :=
  if s ≠ [] ∧ s.all (fun c => c.isDigit) then
    some (s.foldl (fun a c => a * 10 + (c.toNat - 48)) 0)
  else none

/-- Python `int(s)`: an optional sign followed by digits (the slice of
`int()`'s grammar the extractor can meet); `none` models the `ValueError`
Python raises on anything else. -/
def pyInt (s : PyStr) : Option Int :=
  match s with
  | [] => none
  | c :: rest =>
      if c = '-' then (pyDigits? rest).map (fun n => -(n : Int))
      else if c = '+' then (pyDigits? rest).map (fun n => (n : Int))
      else (pyDigits? s).map (fun n => (n : Int))

/-- Decimal digits of `n`, most significant first (fuel-based so that it
reduces definitionally). -/
def natDigitsGo : Nat → Nat → List Char
  | 0, _ => []
  | fuel + 1, n =>
      if n < 10 then [Char.ofNat (48 + n)]
      else natDigitsGo fuel (n / 10) ++ [Char.ofNat (48 + n % 10)]

/-- Python `str(n)` for a natural number. -/
def natDigits (n : Nat) : PyStr := natDigitsGo (n + 1) n

/-! ### Subscripting, as Python `current[key]` / `current[index]` behave -/

/-- `current[key]` for a string key: a dict yields the value or raises
`KeyError`; everything else raises `TypeError`. -/
def pySubscriptKey (v : Value) (key : PyStr) : Except PyErr Value :=
  match v with
  | .obj o =>
      match dictFind? o key with
      | some x => .ok x
      | none => .error .keyError
  | _ => .error .typeError

/-- Normalize a Python index into `[0, len)`: negative indices count from the
end; out of range is `none`. -/
def pyIndex (len : Nat) (i : Int) : Option Nat :=
  let j := if i < 0 then i + len else i
  if 0 ≤ j ∧ j < len then some j.toNat else none

/-- `current[index]` for an integer index: lists and strings index (strings
yield a one-character string), with `IndexError` out of range; a dict with
string keys raises `KeyError`; other values raise `TypeError`. -/
def pySubscriptIdx (v : Value) (i : Int) : Except PyErr Value :=
  match v with
  | .arr l =>
      match pyIndex l.length i with
      | some j => .ok (l.getD j .null)
      | none => .error .indexError
  | .str s =>
      match pyIndex s.length i with
      | some j => .ok (.str [s.getD j ' '])
      | none => .error .indexError
  | .obj _ => .error .keyError
  | _ => .error .typeError

/-! ### extract_json_path -/

def quoteChar : Char := Char.ofNat 39

def cannotAccessMsg (part : PyStr) : PyStr :=
  "Cannot access ".toList ++ [quoteChar] ++ part ++ [quoteChar] ++ " on non-object".toList

def pathNotFoundMsg (path : PyStr) : PyStr := "Path not found: ".toList ++ path

def intLiteralMsg (s : PyStr) : PyStr :=
  "invalid literal for int() with base 10: ".toList ++ [quoteChar] ++ s ++ [quoteChar]

def unpackMsg : PyStr := "too many values to unpack (expected 2)".toList

/-- One iteration of the extractor's `for part in parts` body, up to (not
including) the trailing `None` check. -/
def extractPart (current : Value) (part : PyStr) : Except PyErr Value :=
  if part.contains '[' && part.contains ']' then
    match pySplit '[' part with
    | [key, idxStr] =>
        match pyInt (pyRstrip ']' idxStr) with
        | some index =>
            match (if key = [] then Except.ok current else pySubscriptKey current key) with
            | .ok cur => pySubscriptIdx cur index
            | .error e => .error e
        | none => .error (.valueError (intLiteralMsg (pyRstrip ']' idxStr)))
    | _ => .error (.valueError unpackMsg)
  else
    match current with
    | .obj o => .ok (dictGetD o part)
    | _ => .error (.valueError (cannotAccessMsg part))

/-- The extractor's loop over path parts; after every part, a `None` result
raises `ValueError("Path not found: ...")` (with the `$.`-stripped path). -/
def extractLoop (path : PyStr) : List PyStr → Value → Except PyErr Value
  | [], current => .ok current
  | part :: rest, current =>
      match extractPart current part with
      | .error e => .error e
      | .ok next =>
          match next with
          | .null => .error (.valueError (pathNotFoundMsg path))
          | _ => extractLoop path rest next

/-- `extract_json_path` after the `json.loads` stage: strip an optional `$.`
prefix, split on `.`, and walk the parts. -/
def extract_json_path (data : Value) (path : PyStr) : Except PyErr Value :=
  let path := if path.take 2 = ['$', '.'] then path.drop 2 else path
  extractLoop path (pySplit '.' path) data

/-! ### merge_json and _deep_merge -/

/-- Size of the value found under a key is below the size of the whole
dict (missing keys default to `null`). -/
theorem sizeOf_dictGetD_lt (o : Dict) (k : PyStr) :
    sizeOf (dictGetD o k) < sizeOf (Value.obj o) := by
  induction o with
  | nil => simp [dictGetD, dictFind?]
  | cons kv rest ih =>
      obtain ⟨k', v⟩ := kv
      simp only [dictGetD, dictFind?]
      by_cases h : k' = k
      · simp only [h, if_pos rfl, Option.getD_some]
        simp
        omega
      · simp only [if_neg h]
        simp only [dictGetD] at ih
        simp at ih ⊢
        omega

/-- `_deep_merge(dict1, dict2)`: start from a copy of `dict1`; for each item
of `dict2` in order, merge recursively when both sides hold dicts under the
key, otherwise assign the overlay value. -/
def deepMerge (d1 : Dict) : Dict → Dict
  | [] => d1
  | (k, Value.obj sub2) :: rest =>
      match dictFind? d1 k with
      | some (Value.obj sub1) =>
          deepMerge (dictInsert d1 k (Value.obj (deepMerge sub1 sub2))) rest
      | _ => deepMerge (dictInsert d1 k (Value.obj sub2)) rest
  | (k, v) :: rest => deepMerge (dictInsert d1 k v) rest
termination_by d2 => sizeOf d2
decreasing_by
  all_goals simp
  all_goals omega

/-- `f"Object {i} is not a JSON object"`. -/
def notAnObjectMsg (i : Nat) : PyStr :=
  "Object ".toList ++ natDigits i ++ " is not a JSON object".toList

/-- The parsing/validation loop of `merge_json`: every document must be a
dict, otherwise `ValueError(f"Object {i+1} is not a JSON object")` with the
1-based position `i` of the first offender; nothing is merged on failure. -/
def checkObjects : List Value → Nat → Except PyErr (List Dict)
  | [], _ => .ok []
  | d :: rest, i =>
      match d with
      | .obj o => (checkObjects rest (i + 1)).map (fun os => o :: os)
      | _ => .error (.valueError (notAnObjectMsg i))

/-- Python `dict.update` (the `deep_merge=False` branch). -/
def pyUpdate (d1 d2 : Dict) : Dict := d2.foldl (fun r kv => dictInsert r kv.1 kv.2) d1

/-- `merge_json` after the `json.loads` stage: an empty input list yields
`{}`; otherwise every document is checked to be an object, then the
(deep or shallow) binary merge is folded over them starting from `{}`. -/
def merge_json (docs : List Value) (deep : Bool) : Except PyErr Dict :=
  match docs with
  | [] => .ok []
  | _ =>
      match checkObjects docs 1 with
      | .ok objs =>
          .ok (objs.foldl (fun result o => if deep then deepMerge result o else pyUpdate result o) [])
      | .error e => .error e

/-! ### compare_json and _compare_values -/

/-- A recorded difference, mirroring the dict shapes `_compare_values`
appends to `differences`. -/
inductive DiffEntry where
  | typeMismatch (path : PyStr) (oldType newType : PyStr)
  | keyRemoved (path : PyStr) (oldValue : Value)
  | keyAdded (path : PyStr) (newValue : Value)
  | valueChanged (path : PyStr) (oldValue newValue : Value)
  | arrayLengthMismatch (path : PyStr) (oldLen newLen : Nat)

/-- Python `==` on same-type primitive values (the only place the differ
compares whole values); distinct constructors are unreachable there. -/
def primEq : Value → Value → Bool
  | .null, .null => true
  | .bool a, .bool b => a = b
  | .int a, .int b => a = b
  | .float a, .float b => a = b
  | .str a, .str b => a = b
  | _, _ => false

/-- `path or "root"`. -/
def displayPath (path : PyStr) : PyStr := if path = [] then "root".toList else path

/-- `f"{path}.{key}" if path else key`. -/
def childPath (path key : PyStr) : PyStr := if path = [] then key else path ++ '.' :: key

/-- `f"{path}[{i}]" if path else f"[{i}]"`. -/
def idxPath (path : PyStr) (i : Nat) : PyStr := path ++ '[' :: (natDigits i ++ [']'])

/-- Size of a list element is below the size of the wrapping array value. -/
theorem sizeOf_listGetD_lt (l : List Value) (i : Nat) :
    sizeOf (l.getD i .null) < sizeOf (Value.arr l) := by
  induction l generalizing i with
  | nil => simp [List.getD]
  | cons h t ih =>
      cases i with
      | zero => simp; omega
      | succ j =>
          have := ih j
          simp only [List.getD_cons_succ]
          simp at this ⊢
          omega

/-- `_compare_values(val1, val2, path, differences, ignore_order)`, returning
the entries it appends in order.  A runtime-type mismatch is terminal; dicts
compare by key sets (removed, added, then shared keys recursively); lists
first compare lengths and, unless `ignore_order` is set, recurse over the
zipped common prefix; all other values compare with `==`. -/
def compareValues (v1 v2 : Value) (path : PyStr) (ignoreOrder : Bool) : List DiffEntry :=
  if pyType v1 ≠ pyType v2 then
    [.typeMismatch (displayPath path) (typeName v1) (typeName v2)]
  else
    match v1, v2 with
    | .obj o1, .obj o2 =>
        let keys1 := dictKeys o1
        let keys2 := dictKeys o2
        ((keys1.filter (fun k => ¬ k ∈ keys2)).map
            (fun k => DiffEntry.keyRemoved (childPath path k) (dictGetD o1 k)))
        ++ ((keys2.filter (fun k => ¬ k ∈ keys1)).map
            (fun k => DiffEntry.keyAdded (childPath path k) (dictGetD o2 k)))
        ++ ((keys1.filter (fun k => k ∈ keys2)).flatMap
            (fun k => compareValues (dictGetD o1 k) (dictGetD o2 k) (childPath path k) ignoreOrder))
    | .arr l1, .arr l2 =>
        (if l1.length ≠ l2.length then
           [DiffEntry.arrayLengthMismatch (displayPath path) l1.length l2.length]
         else [])
        ++ (if ignoreOrder then []
            else (List.range (min l1.length l2.length)).flatMap
                (fun i => compareValues (l1.getD i .null) (l2.getD i .null) (idxPath path i) ignoreOrder))
    | _, _ =>
        if primEq v1 v2 then [] else [.valueChanged (displayPath path) v1 v2]
termination_by sizeOf v1
decreasing_by
  · exact sizeOf_dictGetD_lt o1 k
  · exact sizeOf_listGetD_lt l1 i

/-- `compare_json` after the `json.loads` stage: run the recursive comparison
from the empty path. -/
def compare_json (d1 d2 : Value) (ignoreOrder : Bool) : List DiffEntry :=
  compareValues d1 d2 [] ignoreOrder

/-! ### Lemmas about the dictionary primitives -/

theorem dictFind?_insert (d : Dict) (k : PyStr) (v : Value) (k' : PyStr) :
    dictFind? (dictInsert d k v) k' = if k = k' then some v else dictFind? d k' := by
  induction d with
  | nil =>
      simp only [dictInsert, dictFind?]
  | cons kv rest ih =>
      obtain ⟨k0, w⟩ := kv
      simp only [dictInsert]
      by_cases h0 : k0 = k
      · subst h0
        by_cases h1 : k0 = k'
        · subst h1; simp [dictFind?]
        · simp [dictFind?, h1]
      · simp only [if_neg h0, dictFind?]
        by_cases h1 : k0 = k'
        · subst h1
          have : ¬ k = k0 := fun h => h0 h.symm
          simp [this]
        · simp [h1, ih]

theorem dictFind?_eq_none_iff (d : Dict) (k : PyStr) :
    dictFind? d k = none ↔ k ∉ d.map Prod.fst := by
  induction d with
  | nil => simp [dictFind?]
  | cons kv rest ih =>
      obtain ⟨k0, w⟩ := kv
      simp only [dictFind?, List.map_cons, List.mem_cons]
      by_cases h : k0 = k
      · subst h; simp
      · have h' : ¬ k = k0 := fun hc => h hc.symm
        simp only [if_neg h]
        rw [ih]
        exact ⟨fun hn hc => hc.elim h' hn, fun hn hc => hn (Or.inr hc)⟩

theorem mem_keys_dictInsert (d : Dict) (k : PyStr) (v : Value) (k' : PyStr) :
    k' ∈ (dictInsert d k v).map Prod.fst ↔ k' ∈ d.map Prod.fst ∨ k' = k := by
  induction d with
  | nil => simp [dictInsert]
  | cons kv rest ih =>
      obtain ⟨k0, w⟩ := kv
      by_cases h : k0 = k
      · subst h; simp [dictInsert]; tauto
      · simp [dictInsert, h, ih]; tauto

/-! ### The deep-merge claims -/

/-- What `_deep_merge` assigns under one overlay key, given what the base
holds there: two dicts merge recursively, anything else is replaced by the
overlay value. -/
def mergeSpec (bv : Option Value) (ov : Value) : Value :=
  match bv, ov with
  | some (.obj sub1), .obj sub2 => .obj (deepMerge sub1 sub2)
  | _, _ => ov

theorem deepMerge_cons (d1 : Dict) (k : PyStr) (v : Value) (rest : Dict) :
    deepMerge d1 ((k, v) :: rest) =
      deepMerge (dictInsert d1 k (mergeSpec (dictFind? d1 k) v)) rest := by
  cases v with
  | obj sub2 =>
      simp only [deepMerge]
      cases h : dictFind? d1 k with
      | none => simp [mergeSpec, h]
      | some bv =>
          cases bv <;> simp [mergeSpec, h]
  | null => simp [deepMerge, mergeSpec]
  | bool b => simp [deepMerge, mergeSpec]
  | int n => simp [deepMerge, mergeSpec]
  | float q => simp [deepMerge, mergeSpec]
  | str s => simp [deepMerge, mergeSpec]
  | arr l => simp [deepMerge, mergeSpec]

theorem deepMerge_find (base overlay : Dict) (k : PyStr)
    (h : (overlay.map Prod.fst).Nodup) :
    dictFind? (deepMerge base overlay) k =
      match dictFind? overlay k with
      | none => dictFind? base k
      | some v => some (mergeSpec (dictFind? base k) v) := by
  induction overlay generalizing base with
  | nil => simp [deepMerge, dictFind?]
  | cons kv rest ih =>
      obtain ⟨k0, v0⟩ := kv
      simp only [List.map_cons, List.nodup_cons] at h
      obtain ⟨hk0, hrest⟩ := h
      rw [deepMerge_cons, ih _ hrest]
      by_cases hk : k0 = k
      · subst hk
        have hnone : dictFind? rest k0 = none :=
          (dictFind?_eq_none_iff rest k0).mpr hk0
        simp [hnone, dictFind?, dictFind?_insert]
      · simp [dictFind?, hk, dictFind?_insert]

theorem deepMerge_mem_keys (base overlay : Dict) (k : PyStr) :
    k ∈ (deepMerge base overlay).map Prod.fst ↔
      k ∈ base.map Prod.fst ∨ k ∈ overlay.map Prod.fst := by
  induction overlay generalizing base with
  | nil => simp [deepMerge]
  | cons kv rest ih =>
      obtain ⟨k0, v0⟩ := kv
      rw [deepMerge_cons, ih]
      simp only [mem_keys_dictInsert, List.map_cons, List.mem_cons]
      tauto

theorem mergeSpec_none (v : Value) : mergeSpec none v = v := by
  cases v <;> rfl

theorem dictInsert_not_mem (d : Dict) (k : PyStr) (v : Value)
    (h : k ∉ d.map Prod.fst) : dictInsert d k v = d ++ [(k, v)] := by
  induction d with
  | nil => simp [dictInsert]
  | cons kv rest ih =>
      obtain ⟨k0, w⟩ := kv
      simp only [List.map_cons, List.mem_cons] at h
      push_neg at h
      have h0 : ¬ k0 = k := fun hc => h.1 hc.symm
      simp [dictInsert, h0, ih h.2]

theorem deepMerge_disjoint (acc o : Dict) (hn : (o.map Prod.fst).Nodup)
    (hd : ∀ k ∈ o.map Prod.fst, k ∉ acc.map Prod.fst) :
    deepMerge acc o = acc ++ o := by
  induction o generalizing acc with
  | nil => simp [deepMerge]
  | cons kv rest ih =>
      obtain ⟨k, v⟩ := kv
      simp only [List.map_cons, List.nodup_cons] at hn
      have hka : k ∉ acc.map Prod.fst := hd k (by simp)
      have hf : dictFind? acc k = none := (dictFind?_eq_none_iff acc k).mpr hka
      rw [deepMerge_cons, hf, mergeSpec_none, dictInsert_not_mem acc k v hka,
          ih (acc ++ [(k, v)]) hn.2]
      · simp
      · intro k' hk'
        simp only [List.map_append, List.mem_append, List.map_cons]
        rintro (hc | hc)
        · exact hd k' (by simp [hk']) hc
        · simp at hc
          exact hn.1 (hc ▸ hk')

theorem checkObjects_map_obj (os : List Dict) (n : Nat) :
    checkObjects (os.map Value.obj) n = .ok os := by
  induction os generalizing n with
  | nil => simp [checkObjects]
  | cons o rest ih => simp [checkObjects, ih, Except.map]

theorem checkObjects_error_at (docs : List Value) (n i : Nat)
    (hi : i < docs.length)
    (hbad : pyType (docs.getD i .null) ≠ PyType.dict)
    (hgood : ∀ j, j < i → pyType (docs.getD j .null) = PyType.dict) :
    checkObjects docs n = .error (.valueError (notAnObjectMsg (n + i))) := by
  induction docs generalizing n i with
  | nil => simp at hi
  | cons d rest ih =>
      cases i with
      | zero =>
          simp only [List.getD_cons_zero] at hbad
          cases d <;> simp [checkObjects, pyType] at hbad ⊢
      | succ i' =>
          have h0 : pyType d = PyType.dict := by
            have := hgood 0 (Nat.succ_pos i')
            simpa using this
          cases d <;> simp [pyType] at h0
          case obj o =>
            have hrest : checkObjects rest (n + 1) =
                .error (.valueError (notAnObjectMsg ((n + 1) + i'))) := by
              apply ih
              · simpa using hi
              · simpa using hbad
              · intro j hj
                have := hgood (j + 1) (Nat.succ_lt_succ hj)
                simpa using this
            have harith : (n + 1) + i' = n + (i' + 1) := by omega
            simp [checkObjects, hrest, harith, Except.map]

/-- Claim C3: binary deep merge.  For every key, the merged dict holds the
recursive merge when both sides hold dicts under that key and the overlay
value otherwise (arrays included: they are replaced wholesale); the merged
key set is the union of the two key sets. -/
theorem deep_merge_characterization (base overlay : Dict) (k : PyStr) :
    ((overlay.map Prod.fst).Nodup →
      dictFind? (deepMerge base overlay) k =
        match dictFind? overlay k with
        | none => dictFind? base k
        | some v => some (mergeSpec (dictFind? base k) v)) ∧
    (k ∈ (deepMerge base overlay).map Prod.fst ↔
      k ∈ base.map Prod.fst ∨ k ∈ overlay.map Prod.fst) :=
  ⟨fun h => deepMerge_find base overlay k h, deepMerge_mem_keys base overlay k⟩

/-- Witness for C3 at `base = {a: {x: 1}}`, `overlay = {a: {y: 2}}`: the
nested objects merge to `{a: {x: 1, y: 2}}`, and arrays are replaced
(`base = {b: [1, 2]}`, `overlay = {b: [3]}` gives `{b: [3]}`). -/
theorem deep_merge_characterization_witness :
    dictFind? (deepMerge [("a".toList, Value.obj [("x".toList, Value.int 1)])]
        [("a".toList, Value.obj [("y".toList, Value.int 2)])]) "a".toList =
      some (Value.obj [("x".toList, Value.int 1), ("y".toList, Value.int 2)]) ∧
    dictFind? (deepMerge [("b".toList, Value.arr [Value.int 1, Value.int 2])]
        [("b".toList, Value.arr [Value.int 3])]) "b".toList =
      some (Value.arr [Value.int 3]) := by
  constructor
  · have h := (deep_merge_characterization
      [("a".toList, Value.obj [("x".toList, Value.int 1)])]
      [("a".toList, Value.obj [("y".toList, Value.int 2)])] "a".toList).1 (by decide)
    rw [h]
    simp +decide [mergeSpec, dictFind?, deepMerge, dictInsert]
  · have h := (deep_merge_characterization
      [("b".toList, Value.arr [Value.int 1, Value.int 2])]
      [("b".toList, Value.arr [Value.int 3])] "b".toList).1 (by decide)
    rw [h]
    simp +decide [mergeSpec, dictFind?]

/-- Claim C6: merging many documents is the left fold of the binary deep
merge over them in order, starting from the empty dict, so later documents
take precedence; in particular `merge([{a:1}, {a:2}]) = {a:2}`. -/
theorem merge_json_foldl_deepMerge :
    (∀ os : List Dict, merge_json (os.map Value.obj) true = .ok (os.foldl deepMerge [])) ∧
    merge_json [Value.obj [("a".toList, Value.int 1)], Value.obj [("a".toList, Value.int 2)]] true =
      .ok [("a".toList, Value.int 2)] := by
  constructor
  · intro os
    cases os with
    | nil => simp [merge_json]
    | cons o rest =>
        have hc := checkObjects_map_obj (o :: rest) 1
        simp only [List.map_cons] at hc
        simp [merge_json, hc]
  · simp +decide [merge_json, checkObjects, deepMerge, dictFind?, dictInsert, Except.map]

/-- Claim C9: `merge_json` rejects non-object inputs atomically: when the
document at (0-based) position `i` is the first non-dict in the list, the
whole merge fails with the typed `ValueError("Object i+1 is not a JSON
object")` naming that document, and no merged result is produced. -/
theorem merge_json_rejects_non_object (docs : List Value) (i : Nat)
    (hi : i < docs.length)
    (hbad : pyType (docs.getD i .null) ≠ PyType.dict)
    (hgood : ∀ j, j < i → pyType (docs.getD j .null) = PyType.dict) :
    merge_json docs true = .error (.valueError (notAnObjectMsg (i + 1))) := by
  cases docs with
  | nil => simp at hi
  | cons d rest =>
      have h := checkObjects_error_at (d :: rest) 1 i hi hbad hgood
      have harith : 1 + i = i + 1 := by omega
      rw [harith] at h
      simp [merge_json, h]

/-- Witness for C9: `merge([{}, 5])` fails with `Object 2 is not a JSON
object`. -/
theorem merge_json_rejects_non_object_witness :
    merge_json [Value.obj [], Value.int 5] true =
      .error (.valueError (notAnObjectMsg 2)) := by
  have h := merge_json_rejects_non_object [Value.obj [], Value.int 5] 1
    (by decide) (by decide) (by decide)
  exact h

/-- Claim C10: merging the empty sequence of documents returns the empty
object, and the empty object is a left identity of the binary deep merge on
well-formed (duplicate-free) dicts. -/
theorem merge_json_empty_identity :
    merge_json [] true = .ok [] ∧
    ∀ o : Dict, (o.map Prod.fst).Nodup → deepMerge [] o = o := by
  constructor
  · rfl
  · intro o h
    have := deepMerge_disjoint [] o h (by simp)
    simpa using this

/-- Witness for C10 at `o = {a: 1, b: 2}`. -/
theorem merge_json_empty_identity_witness :
    deepMerge [] [("a".toList, Value.int 1), ("b".toList, Value.int 2)] =
      [("a".toList, Value.int 1), ("b".toList, Value.int 2)] :=
  merge_json_empty_identity.2
    [("a".toList, Value.int 1), ("b".toList, Value.int 2)] (by decide)

/-! ### The structural-diff claims -/

/-- The JSON kind of a value, as the specification's value model sees it:
`int` and `float` are both Numbers. -/
inductive JsonKind where
  | nullK | boolK | numberK | stringK | arrayK | objectK
deriving DecidableEq

def jsonKind : Value → JsonKind
  | .null => .nullK
  | .bool _ => .boolK
  | .int _ => .numberK
  | .float _ => .numberK
  | .str _ => .stringK
  | .arr _ => .arrayK
  | .obj _ => .objectK

theorem pyType_ne_of_jsonKind_ne (a b : Value) (h : jsonKind a ≠ jsonKind b) :
    pyType a ≠ pyType b := by
  cases a <;> cases b <;> simp [jsonKind, pyType] at h ⊢

/-- The differ with a runtime-type mismatch between its arguments emits the
single mismatch entry and stops. -/
theorem compareValues_pyType_ne (a b : Value) (path : PyStr) (io : Bool)
    (h : pyType a ≠ pyType b) :
    compareValues a b path io =
      [.typeMismatch (displayPath path) (typeName a) (typeName b)] := by
  rw [compareValues.eq_def]
  rw [if_pos h]

theorem compareValues_self (n : Nat) :
    ∀ (x : Value), sizeOf x < n → ∀ (path : PyStr) (io : Bool),
      compareValues x x path io = [] := by
  induction n with
  | zero => exact fun x h => absurd h (Nat.not_lt_zero _)
  | succ n ih =>
      intro x hx path io
      rw [compareValues.eq_def]
      rw [if_neg (by simp)]
      cases x with
      | obj o =>
          simp only
          have hrem : (dictKeys o).filter (fun k => ¬ k ∈ dictKeys o) = [] :=
            List.filter_eq_nil_iff.mpr (fun k hk => by simp [hk])
          have hsh : (dictKeys o).filter (fun k => k ∈ dictKeys o) = dictKeys o :=
            List.filter_eq_self.mpr (fun k hk => by simp [hk])
          rw [hrem, hsh]
          simp only [List.map_nil, List.nil_append]
          apply List.flatMap_eq_nil_iff.mpr
          intro k hk
          apply ih
          have h1 := sizeOf_dictGetD_lt o k
          have h2 : sizeOf (Value.obj o) < n + 1 := hx
          omega
      | arr l =>
          simp only
          rw [if_neg (by simp)]
          cases io with
          | true => simp
          | false =>
              simp only [Bool.false_eq_true, if_false, List.nil_append]
              apply List.flatMap_eq_nil_iff.mpr
              intro i hi
              apply ih
              have h1 := sizeOf_listGetD_lt l i
              have h2 : sizeOf (Value.arr l) < n + 1 := hx
              omega
      | null => simp [primEq]
      | bool b => simp [primEq]
      | int m => simp [primEq]
      | float q => simp [primEq]
      | str s => simp [primEq]

/-- Claim C7: the structural diff is reflexive: comparing any value with
itself produces no diff entries, for either array-order mode. -/
theorem compare_json_reflexive (x : Value) (io : Bool) :
    compare_json x x io = [] :=
  compareValues_self (sizeOf x + 1) x (Nat.lt_succ_self _) [] io

/-- Claim C8: a kind mismatch short-circuits recursion: whenever the two
values at a path have different JSON kinds, the differ emits exactly one
`TypeMismatch` entry at that path and recurses no deeper; in particular
`diff({a: 1}, {a: {x: 1}})` is exactly one `TypeMismatch` at path `a`. -/
theorem diff_type_mismatch_short_circuits :
    (∀ (a b : Value) (path : PyStr) (io : Bool), jsonKind a ≠ jsonKind b →
      compareValues a b path io =
        [.typeMismatch (displayPath path) (typeName a) (typeName b)]) ∧
    compare_json (.obj [("a".toList, .int 1)])
        (.obj [("a".toList, .obj [("x".toList, .int 1)])]) false =
      [.typeMismatch "a".toList "int".toList "dict".toList] := by
  constructor
  · intro a b path io h
    exact compareValues_pyType_ne a b path io (pyType_ne_of_jsonKind_ne a b h)
  · simp +decide [compare_json, compareValues, pyType, typeName, displayPath,
      childPath, dictKeys, dedupGo, dictGetD, dictFind?]

/-- Witness for C8 at `a = 1`, `b = "x"` (Number vs String) at the root. -/
theorem diff_type_mismatch_short_circuits_witness :
    compareValues (.int 1) (.str "x".toList) [] false =
      [.typeMismatch (displayPath []) (typeName (.int 1)) (typeName (.str "x".toList))] :=
  diff_type_mismatch_short_circuits.1 (.int 1) (.str "x".toList) [] false (by decide)

/-- Claim C4, amended: the differ distinguishes by Python runtime type, not
JSON kind.  Two ints or two floats never produce a `TypeMismatch` (only `[]`
or one `ValueChanged`), but an int against a float always produces exactly
one `TypeMismatch`, so `diff(1, 1.0)` is a one-entry `TypeMismatch`, not the
empty sequence. -/
theorem diff_numbers_by_runtime_type :
    (∀ (m n : Int) (path : PyStr) (io : Bool),
      compareValues (.int m) (.int n) path io =
        if m = n then [] else [.valueChanged (displayPath path) (.int m) (.int n)]) ∧
    (∀ (p q : Rat) (path : PyStr) (io : Bool),
      compareValues (.float p) (.float q) path io =
        if p = q then [] else [.valueChanged (displayPath path) (.float p) (.float q)]) ∧
    (∀ (m : Int) (q : Rat) (path : PyStr) (io : Bool),
      compareValues (.int m) (.float q) path io =
        [.typeMismatch (displayPath path) "int".toList "float".toList]) ∧
    compare_json (.int 1) (.float 1) false =
      [.typeMismatch "root".toList "int".toList "float".toList] := by
  refine ⟨?_, ?_, ?_, ?_⟩
  · intro m n path io
    rw [compareValues.eq_def]
    rw [if_neg (by simp [pyType])]
    by_cases h : m = n <;> simp [primEq, h]
  · intro p q path io
    rw [compareValues.eq_def]
    rw [if_neg (by simp [pyType])]
    by_cases h : p = q <;> simp [primEq, h]
  · intro m q path io
    exact compareValues_pyType_ne _ _ path io (by simp [pyType])
  · simp +decide [compare_json, compareValues, pyType, typeName, displayPath]

/-- Counterexample to claim C4 as stated: the integer `1` and the float
`1.0` are numerically equal JSON Numbers, yet their diff is a one-entry
`TypeMismatch` (`int` vs `float`), not the empty sequence. -/
theorem diff_int_float_counterexample :
    compare_json (.int 1) (.float 1) false ≠ [] ∧
    compare_json (.int 1) (.float 1) false =
      [.typeMismatch "root".toList "int".toList "float".toList] := by
  constructor
  · have h := compareValues_pyType_ne (.int 1) (.float 1) [] false (by simp [pyType])
    simp [compare_json, h]
  · simp +decide [compare_json, compareValues, pyType, typeName, displayPath]

/-- Claim C5: with `ignoreOrder` the array comparison is a length check
only: a length mismatch is always reported first (for either mode), and two
equal-length arrays compare clean under `ignoreOrder` whatever their
contents; `diff({a:[1,2]}, {a:[1,2,3]}, ignoreOrder=true)` is exactly one
`ArrayLengthMismatch`. -/
theorem diff_ignore_order_length_only :
    (∀ (l1 l2 : List Value) (path : PyStr) (io : Bool), l1.length ≠ l2.length →
      ∃ rest, compareValues (.arr l1) (.arr l2) path io =
        .arrayLengthMismatch (displayPath path) l1.length l2.length :: rest) ∧
    (∀ (l1 l2 : List Value) (path : PyStr), l1.length = l2.length →
      compareValues (.arr l1) (.arr l2) path true = []) ∧
    compare_json (.obj [("a".toList, .arr [.int 1, .int 2])])
        (.obj [("a".toList, .arr [.int 1, .int 2, .int 3])]) true =
      [.arrayLengthMismatch "a".toList 2 3] := by
  refine ⟨?_, ?_, ?_⟩
  · intro l1 l2 path io h
    rw [compareValues.eq_def]
    rw [if_neg (by simp [pyType])]
    simp only [if_pos h]
    exact ⟨_, rfl⟩
  · intro l1 l2 path h
    rw [compareValues.eq_def]
    rw [if_neg (by simp [pyType])]
    simp [h]
  · simp +decide [compare_json, compareValues, pyType, typeName, displayPath,
      childPath, dictKeys, dedupGo, dictGetD, dictFind?]

/-- Witness for C5: length mismatch `[1]` vs `[]` is reported, and the
equal-length arrays `[1, null]` vs `[true, "s"]` compare clean under
`ignoreOrder`. -/
theorem diff_ignore_order_length_only_witness :
    (∃ rest, compareValues (.arr [.int 1]) (.arr []) [] false =
      .arrayLengthMismatch (displayPath []) 1 0 :: rest) ∧
    compareValues (.arr [.int 1, .null]) (.arr [.bool true, .str "s".toList]) [] true = [] :=
  ⟨diff_ignore_order_length_only.1 [.int 1] [] [] false (by decide),
   diff_ignore_order_length_only.2.1 [.int 1, .null] [.bool true, .str "s".toList] [] (by decide)⟩

/-! ### The extractor claims

The extractor's path grammar (spec §4.2): segments separated by `.`, each
segment either a bare field name or a field name with one trailing bracketed
index (an empty field name applies the index to the current value). -/

/-- A path segment: a field selector, or a field-plus-index selector whose
index is kept as its digit string. -/
inductive Part where
  | plain (key : PyStr)
  | bracket (key : PyStr) (idx : PyStr)
deriving DecidableEq

/-- A character usable inside a field name: not a separator (`.`), not a
bracket, and not `$` (so the rendered path cannot begin with `$.`). -/
abbrev wfChar (c : Char) : Prop := c ≠ '.' ∧ c ≠ '[' ∧ c ≠ ']' ∧ c ≠ '$'

abbrev wfKey (k : PyStr) : Prop := ∀ c ∈ k, wfChar c

/-- Well-formed segment: plain field names are nonempty; bracket indices are
nonempty digit strings (field part may be empty). -/
abbrev wfPart : Part → Prop
  | .plain k => wfKey k ∧ k ≠ []
  | .bracket k idx => wfKey k ∧ idx ≠ [] ∧ ∀ c ∈ idx, c.isDigit

abbrev wfParts (ps : List Part) : Prop := ∀ p ∈ ps, wfPart p

instance (p : Part) : Decidable (wfPart p) :=
  match p with
  | .plain k => inferInstanceAs (Decidable (wfKey k ∧ k ≠ []))
  | .bracket k idx =>
      inferInstanceAs (Decidable (wfKey k ∧ idx ≠ [] ∧ ∀ c ∈ idx, c.isDigit))

/-- Render one segment back to its concrete syntax. -/
def renderPart : Part → PyStr
  | .plain k => k
  | .bracket k idx => k ++ '[' :: (idx ++ [']'])

/-- Render a segment list to a dot-notation path string. -/
def renderParts : List Part → PyStr
  | [] => []
  | [p] => renderPart p
  | p :: rest => renderPart p ++ '.' :: renderParts rest

/-- Numeric value of a digit string. -/
def digitsToNat (s : PyStr) : Nat := s.foldl (fun a c => a * 10 + (c.toNat - 48)) 0

/-- Modelled from the spec (§4.2): what one selector denotes — a field
selector looks the name up in an object, an index selector indexes an
array; anything else (including an absent key or an out-of-range index)
does not resolve.  This is the specification-side semantics the extractor
is compared against. -/
def resolveStep (v : Value) : Part → Option Value
  | .plain k =>
      match v with
      | .obj o => dictFind? o k
      | _ => none
  | .bracket k idx =>
      let base : Option Value :=
        if k = [] then some v
        else
          match v with
          | .obj o => dictFind? o k
          | _ => none
      match base with
      | some (Value.arr l) =>
          if digitsToNat idx < l.length then some (l.getD (digitsToNat idx) .null) else none
      | _ => none

/-- Modelled from the spec: the substructure of `v` at a concrete path — the
chained resolution of its segments. -/
def resolvePath (v : Value) : List Part → Option Value
  | [] => some v
  | p :: rest =>
      match resolveStep v p with
      | some w => resolvePath w rest
      | none => none

/-! #### String-level round-trip lemmas -/

theorem pySplit_no_sep (sep : Char) (s : PyStr) (h : sep ∉ s) : pySplit sep s = [s] := by
  induction s with
  | nil => rfl
  | cons c rest ih =>
      simp only [List.mem_cons, not_or] at h
      have h1 : ¬ c = sep := fun hc => h.1 hc.symm
      rw [pySplit, if_neg h1, ih h.2]

theorem pySplit_append (sep : Char) (a b : PyStr) (h : sep ∉ a) :
    pySplit sep (a ++ sep :: b) = a :: pySplit sep b := by
  induction a with
  | nil => simp [pySplit]
  | cons c rest ih =>
      simp only [List.mem_cons, not_or] at h
      have h1 : ¬ c = sep := fun hc => h.1 hc.symm
      simp only [List.cons_append]
      rw [pySplit, if_neg h1, ih h.2]

theorem dropWhile_eq_self_of_none (p : Char → Bool) (s : PyStr)
    (h : ∀ c ∈ s, p c = false) : s.dropWhile p = s := by
  cases s with
  | nil => rfl
  | cons c rest => rw [List.dropWhile_cons_of_neg (by simp [h c (by simp)])]

theorem pyRstrip_digits (idx : PyStr) (h : ∀ c ∈ idx, c.isDigit) :
    pyRstrip ']' (idx ++ [']']) = idx := by
  have hd : ∀ c ∈ idx.reverse, (decide (c = ']')) = false := by
    intro c hc
    have := h c (List.mem_reverse.mp hc)
    simp only [decide_eq_false_iff_not]
    intro he
    rw [he] at this
    simp [Char.isDigit] at this
  rw [pyRstrip, List.reverse_append]
  simp only [List.reverse_cons, List.reverse_nil, List.nil_append, List.singleton_append]
  rw [List.dropWhile_cons_of_pos (by simp), dropWhile_eq_self_of_none _ _ hd,
      List.reverse_reverse]

theorem pyInt_digits (idx : PyStr) (hne : idx ≠ []) (h : ∀ c ∈ idx, c.isDigit) :
    pyInt idx = some ((digitsToNat idx : Nat) : Int) := by
  cases idx with
  | nil => exact absurd rfl hne
  | cons c rest =>
      have hc := h c (by simp)
      have h1 : ¬ c = '-' := by
        intro he; rw [he] at hc; simp [Char.isDigit] at hc
      have h2 : ¬ c = '+' := by
        intro he; rw [he] at hc; simp [Char.isDigit] at hc
      rw [pyInt, if_neg h1, if_neg h2]
      rw [pyDigits?, if_pos ⟨by simp, by simpa using h⟩]
      rfl

/-! #### Renderer lemmas -/

theorem contains_false_of_not_mem (k : PyStr) (c : Char) (h : c ∉ k) :
    (k.contains c) = false := by
  simp [List.contains, List.elem_eq_mem, h]

theorem contains_true_of_mem (k : PyStr) (c : Char) (h : c ∈ k) :
    (k.contains c) = true := by
  simp [List.contains, List.elem_eq_mem, h]

theorem dot_not_mem_renderPart (p : Part) (h : wfPart p) : '.' ∉ renderPart p := by
  cases p with
  | plain k => exact fun hm => (h.1 '.' hm).1 rfl
  | bracket k idx =>
      intro hm
      simp only [renderPart, List.mem_append, List.mem_cons] at hm
      rcases hm with hm | hm | hm | hm
      · exact (h.1 '.' hm).1 rfl
      · exact absurd hm (by decide)
      · have := h.2.2 '.' hm
        simp [Char.isDigit] at this
      · simp at hm

theorem pySplit_renderParts (ps : List Part) (h : wfParts ps) :
    ps ≠ [] → pySplit '.' (renderParts ps) = ps.map renderPart := by
  induction ps with
  | nil => intro hc; exact absurd rfl hc
  | cons p rest ih =>
      intro _
      cases rest with
      | nil =>
          simp only [renderParts, List.map_cons, List.map_nil]
          exact pySplit_no_sep '.' (renderPart p) (dot_not_mem_renderPart p (h p (by simp)))
      | cons q rest' =>
          have hstep : renderParts (p :: q :: rest') =
              renderPart p ++ '.' :: renderParts (q :: rest') := rfl
          rw [hstep, pySplit_append _ _ _ (dot_not_mem_renderPart p (h p (by simp))),
              ih (fun r hr => h r (by simp [hr])) (by simp)]
          rfl

theorem renderPart_head_ne_dollar (p : Part) (h : wfPart p) :
    ∃ c t, renderPart p = c :: t ∧ c ≠ '$' := by
  cases p with
  | plain k =>
      cases k with
      | nil => exact absurd rfl h.2
      | cons c t => exact ⟨c, t, rfl, (h.1 c (by simp)).2.2.2⟩
  | bracket k idx =>
      cases k with
      | nil => exact ⟨'[', idx ++ [']'], rfl, by decide⟩
      | cons c t =>
          exact ⟨c, t ++ '[' :: (idx ++ [']']), rfl, (h.1 c (by simp)).2.2.2⟩

theorem renderParts_cons_eq (p : Part) (rest : List Part) :
    ∃ s, renderParts (p :: rest) = renderPart p ++ s := by
  cases rest with
  | nil => exact ⟨[], by simp [renderParts]⟩
  | cons q rest' => exact ⟨'.' :: renderParts (q :: rest'), rfl⟩

theorem renderParts_take2_ne (ps : List Part) (h : wfParts ps) (hne : ps ≠ []) :
    (renderParts ps).take 2 ≠ ['$', '.'] := by
  cases ps with
  | nil => exact absurd rfl hne
  | cons p rest =>
      obtain ⟨s, hs⟩ := renderParts_cons_eq p rest
      obtain ⟨c, t, hct, hc⟩ := renderPart_head_ne_dollar p (h p (by simp))
      rw [hs, hct]
      have h2 : ((c :: t) ++ s).take 2 = c :: (t ++ s).take 1 := rfl
      rw [h2]
      intro heq
      injection heq with h1 _
      exact hc h1

/-! #### Per-part and whole-path correspondence -/

theorem pyIndex_natCast (len i : Nat) (h : i < len) :
    pyIndex len ((i : Nat) : Int) = some i := by
  have h1 : ¬ ((i : Int) < 0) := by omega
  have h2 : (0 : Int) ≤ (i : Int) ∧ (i : Int) < (len : Int) := by omega
  simp only [pyIndex, if_neg h1, if_pos h2, Int.toNat_natCast]

theorem extractPart_of_resolveStep (v : Value) (p : Part) (w : Value)
    (hwf : wfPart p) (hres : resolveStep v p = some w) :
    extractPart v (renderPart p) = .ok w := by
  cases p with
  | plain k =>
      have hnb : '[' ∉ k := fun hm => (hwf.1 '[' hm).2.1 rfl
      have hcb : (k.contains '[') = false := contains_false_of_not_mem k '[' hnb
      cases v with
      | obj o =>
          simp only [resolveStep] at hres
          simp [renderPart, extractPart, hcb, dictGetD, hres, hnb]
      | null => simp [resolveStep] at hres
      | bool b => simp [resolveStep] at hres
      | int n => simp [resolveStep] at hres
      | float q => simp [resolveStep] at hres
      | str s => simp [resolveStep] at hres
      | arr l => simp [resolveStep] at hres
  | bracket k idx =>
      obtain ⟨hk, hne, hdig⟩ := hwf
      have hkb : '[' ∉ k := fun hm => (hk '[' hm).2.1 rfl
      have hib : '[' ∉ idx ++ [']'] := by
        intro hm
        rcases List.mem_append.mp hm with hm | hm
        · have := hdig '[' hm
          simp [Char.isDigit] at this
        · simp at hm
      have hsplit : pySplit '[' (k ++ '[' :: (idx ++ [']'])) = [k, idx ++ [']']] := by
        rw [pySplit_append _ _ _ hkb, pySplit_no_sep _ _ hib]
      have hmem1 : ((k ++ '[' :: (idx ++ [']'])).contains '[') = true :=
        contains_true_of_mem _ _ (by simp)
      have hmem2 : ((k ++ '[' :: (idx ++ [']'])).contains ']') = true :=
        contains_true_of_mem _ _ (by simp)
      have hrstrip := pyRstrip_digits idx hdig
      have hint := pyInt_digits idx hne hdig
      simp only [renderPart, extractPart, hmem1, hmem2, Bool.and_self, if_true]
      rw [hsplit]
      simp only [hrstrip, hint]
      simp only [resolveStep] at hres
      by_cases hk0 : k = []
      · rw [if_pos hk0] at hres
        rw [if_pos hk0]
        cases v with
        | arr l =>
            simp only at hres
            by_cases hlen : digitsToNat idx < l.length
            · rw [if_pos hlen] at hres
              simp only [pySubscriptIdx, pyIndex_natCast l.length (digitsToNat idx) hlen]
              exact congrArg Except.ok (Option.some.inj hres)
            · rw [if_neg hlen] at hres
              exact absurd hres (by simp)
        | null => simp at hres
        | bool b => simp at hres
        | int n => simp at hres
        | float q => simp at hres
        | str s => simp at hres
        | obj o => simp at hres
      · rw [if_neg hk0] at hres
        rw [if_neg hk0]
        cases v with
        | obj o =>
            cases hfind : dictFind? o k with
            | none => simp [hfind] at hres
            | some mid =>
                simp only [hfind] at hres
                simp only [pySubscriptKey, hfind]
                cases mid with
                | arr l =>
                    simp only at hres
                    by_cases hlen : digitsToNat idx < l.length
                    · rw [if_pos hlen] at hres
                      simp only [pySubscriptIdx, pyIndex_natCast l.length (digitsToNat idx) hlen]
                      exact congrArg Except.ok (Option.some.inj hres)
                    · rw [if_neg hlen] at hres
                      exact absurd hres (by simp)
                | null => simp at hres
                | bool b => simp at hres
                | int n => simp at hres
                | float q => simp at hres
                | str s => simp at hres
                | obj o2 => simp at hres
        | null => simp at hres
        | bool b => simp at hres
        | int n => simp at hres
        | float q => simp at hres
        | str s => simp at hres
        | arr l => simp at hres

theorem resolveStep_null (p : Part) : resolveStep .null p = none := by
  cases p with
  | plain k => rfl
  | bracket k idx =>
      by_cases hk : k = [] <;> simp [resolveStep, hk]

theorem extractLoop_of_resolvePath (full : PyStr) (ps : List Part) (d v : Value)
    (hwf : wfParts ps) (hres : resolvePath d ps = some v) (hv : v ≠ .null) :
    extractLoop full (ps.map renderPart) d = .ok v := by
  induction ps generalizing d with
  | nil =>
      simp only [resolvePath, Option.some.injEq] at hres
      subst hres
      rfl
  | cons p rest ih =>
      simp only [resolvePath] at hres
      cases hstep : resolveStep d p with
      | none => rw [hstep] at hres; exact absurd hres (by simp)
      | some w =>
          rw [hstep] at hres
          have hpw := extractPart_of_resolveStep d p w (hwf p (by simp)) hstep
          have hwnull : w ≠ .null := by
            cases rest with
            | nil =>
                simp only [resolvePath, Option.some.injEq] at hres
                exact hres ▸ hv
            | cons q rest' =>
                intro he
                rw [he] at hres
                simp only [resolvePath, resolveStep_null] at hres
                exact Option.noConfusion hres
          simp only [List.map_cons, extractLoop, hpw]
          have hrest : extractLoop full (rest.map renderPart) w = .ok v :=
            ih w (fun r hr => hwf r (List.mem_cons_of_mem p hr)) hres
          cases w with
          | null => exact absurd rfl hwnull
          | bool b => exact hrest
          | int n => exact hrest
          | float q => exact hrest
          | str s => exact hrest
          | arr l => exact hrest
          | obj o => exact hrest

/-- Claim C1, amended: for every document and every well-formed concrete
path whose segments all resolve, the extractor returns exactly the
substructure at that path, provided that substructure is not `null`; a
`null` at the end of a resolving path instead raises
`ValueError("Path not found")` (see the counterexample). -/
theorem extract_json_path_roundtrip (d : Value) (ps : List Part) (v : Value)
    (hwf : wfParts ps) (hne : ps ≠ []) (hres : resolvePath d ps = some v)
    (hv : v ≠ .null) :
    extract_json_path d (renderParts ps) = .ok v := by
  simp only [extract_json_path]
  rw [if_neg (renderParts_take2_ne ps hwf hne), pySplit_renderParts ps hwf hne]
  exact extractLoop_of_resolvePath (renderParts ps) ps d v hwf hres hv

/-- Witness for C1 at `d = {user: {name: "Alice"}}`, `p = "user.name"`. -/
theorem extract_json_path_roundtrip_witness :
    extract_json_path
        (.obj [("user".toList, .obj [("name".toList, .str "Alice".toList)])])
        (renderParts [Part.plain "user".toList, Part.plain "name".toList]) =
      .ok (.str "Alice".toList) :=
  extract_json_path_roundtrip
    (.obj [("user".toList, .obj [("name".toList, .str "Alice".toList)])])
    [Part.plain "user".toList, Part.plain "name".toList]
    (.str "Alice".toList)
    (by decide) (by decide) (by rfl) (by simp)

/-- Counterexample to claim C1 as stated: in `d = {a: null}` the path `a`
resolves (to the JSON `null` that sits there), yet the extractor does not
return it — it raises the typed `ValueError("Path not found: a")`. -/
theorem extract_json_path_null_counterexample :
    resolvePath (.obj [("a".toList, .null)]) [Part.plain "a".toList] = some .null ∧
    renderParts [Part.plain "a".toList] = "a".toList ∧
    extract_json_path (.obj [("a".toList, .null)]) "a".toList =
      .error (.valueError (pathNotFoundMsg "a".toList)) :=
  ⟨rfl, rfl, rfl⟩

/-- Claim C2, amended: only the dot-form failures are typed.  An absent (or
null-valued) field name in dot form raises the typed
`ValueError("Path not found")` and a field selector on a non-object raises
the typed `ValueError("Cannot access ... on non-object")`; but bracket-form
failures escape as untyped exceptions: an out-of-range index raises
`IndexError`, a bracketed field selector with an absent key raises
`KeyError`, and an index selector applied to a non-array raises
`TypeError`. -/
theorem extract_error_contract_amended :
    (∀ (o : Dict) (k : PyStr), wfKey k → k ≠ [] → dictFind? o k = none →
      extract_json_path (.obj o) k = .error (.valueError (pathNotFoundMsg k))) ∧
    (∀ (v : Value) (k : PyStr), pyType v ≠ PyType.dict → wfKey k → k ≠ [] →
      extract_json_path v k = .error (.valueError (cannotAccessMsg k))) ∧
    extract_json_path (.arr [.int 1, .int 2]) "[5]".toList = .error .indexError ∧
    extract_json_path (.obj [("a".toList, .int 1)]) "a[0]".toList = .error .typeError ∧
    extract_json_path (.obj [("b".toList, .int 1)]) "a[0]".toList = .error .keyError := by
  have hstrip : ∀ (k : PyStr), wfKey k → k ≠ [] → k.take 2 ≠ ['$', '.'] := by
    intro k hk hne
    have h := renderParts_take2_ne [Part.plain k]
      (by intro p hp; simp at hp; subst hp; exact ⟨hk, hne⟩) (by simp)
    simpa [renderParts, renderPart] using h
  refine ⟨?_, ?_, rfl, rfl, rfl⟩
  · intro o k hk hne hfind
    have hnb : '[' ∉ k := fun hm => (hk '[' hm).2.1 rfl
    have hnd : '.' ∉ k := fun hm => (hk '.' hm).1 rfl
    have hcb := contains_false_of_not_mem k '[' hnb
    simp only [extract_json_path]
    rw [if_neg (hstrip k hk hne), pySplit_no_sep '.' k hnd]
    simp [extractLoop, extractPart, hcb, dictGetD, hfind, hnb]
  · intro v k hv hk hne
    have hnb : '[' ∉ k := fun hm => (hk '[' hm).2.1 rfl
    have hnd : '.' ∉ k := fun hm => (hk '.' hm).1 rfl
    have hcb := contains_false_of_not_mem k '[' hnb
    simp only [extract_json_path]
    rw [if_neg (hstrip k hk hne), pySplit_no_sep '.' k hnd]
    cases v with
    | obj o => exact absurd rfl hv
    | null => simp [extractLoop, extractPart, hcb, hnb]
    | bool b => simp [extractLoop, extractPart, hcb, hnb]
    | int n => simp [extractLoop, extractPart, hcb, hnb]
    | float q => simp [extractLoop, extractPart, hcb, hnb]
    | str s => simp [extractLoop, extractPart, hcb, hnb]
    | arr l => simp [extractLoop, extractPart, hcb, hnb]

/-- Witness for C2 (amended) at `extract({a:1}, "b")` (typed path-not-found)
and `extract(3, "x")` (typed cannot-access). -/
theorem extract_error_contract_amended_witness :
    extract_json_path (.obj [("a".toList, .int 1)]) "b".toList =
      .error (.valueError (pathNotFoundMsg "b".toList)) ∧
    extract_json_path (.int 3) "x".toList =
      .error (.valueError (cannotAccessMsg "x".toList)) :=
  ⟨extract_error_contract_amended.1 [("a".toList, .int 1)] "b".toList
      (by decide) (by decide) (by rfl),
   extract_error_contract_amended.2.1 (.int 3) "x".toList
      (by decide) (by decide) (by decide)⟩

/-- Counterexample to claim C2 as stated: indexing `[1, 2]` with the
out-of-range selector `[5]` escapes as an untyped `IndexError` crash — not
the typed `ValueError` the claim promises for an unresolved selector. -/
theorem extract_untyped_crash_counterexample :
    extract_json_path (.arr [.int 1, .int 2]) "[5]".toList = .error .indexError ∧
    PyErr.indexError ≠ PyErr.valueError (pathNotFoundMsg "[5]".toList) :=
  ⟨rfl, by simp⟩

end JsonTools
